import Mathlib

/-!
Verification of the cover-SVG layout/geometry code of the
`makePeriodicTableEPUB` repository (`scripts/build_cover_svg.py`).

The grid placer (`compute_position`, `build_cells`) and the arc-path
generator (`_normalize_topclock_deg`, `_clockwise_extent_deg`,
`_polar_to_xy`, `make_arc_path_d`) are embedded shallowly below.
Python floats are modelled by exact arithmetic: `ℚ` wherever the code
only adds, subtracts, multiplies, divides and takes `%`, and `ℝ` for
the trigonometric evaluations of `_polar_to_xy`.  Python dictionary
records are modelled by a structure with `Option` fields; a missing
key read with `[...]` raises `KeyError`, modelled by `Except`.
-/

namespace CoverSvg

/-- Layout constants of `build_cover_svg.py`. -/
def LAYOUT_WIDTH : ℚ := 2560
def LAYOUT_HEIGHT : ℚ := 1600
def COLUMNS : ℚ := 18
def ROWS : ℚ := 9
def MARGIN_LEFT : ℚ := 160
def MARGIN_RIGHT : ℚ := 160
def MARGIN_TOP : ℚ := 200
def MARGIN_BOTTOM : ℚ := 200

def LAN_START_COLUMN : Int := 4
def LAN_ROW : Int := 8
def ACT_ROW : Int := 9
def LAN_GAP_FACTOR : ℚ := 1/2

/-- An element record as read from the normalized JSON: a Python dict in
which any of the keys may be absent (`Option`).  `group` and `period`
are absent or integers; reading an absent key with `element[key]`
raises `KeyError` while `element.get(key)` yields `None`. -/
structure ElementRecord where
  atomic_number : Option Int
  group : Option Int
  period : Option Int
  symbol : Option String
deriving DecidableEq, Repr

/-- A placed cell, mirroring the `Cell` dataclass. -/
structure Cell where
  atomic_number : Int
  symbol : String
  x : ℚ
  y : ℚ
  width : ℚ
  height : ℚ
deriving DecidableEq, Repr

instance {ε α : Type} [DecidableEq ε] [DecidableEq α] : DecidableEq (Except ε α) := fun a b =>
  match a, b with
  | .error x, .error y =>
    if h : x = y then .isTrue (by rw [h]) else .isFalse (fun hc => h (Except.error.inj hc))
  | .error _, .ok _ => .isFalse (fun hc => Except.noConfusion hc)
  | .ok _, .error _ => .isFalse (fun hc => Except.noConfusion hc)
  | .ok x, .ok y =>
    if h : x = y then .isTrue (by rw [h]) else .isFalse (fun hc => h (Except.ok.inj hc))

/-- Embedding of `compute_position`: `element["atomic_number"]` raises `KeyError` when
the key is absent (the `.error` case); otherwise the lanthanide and
actinide atomic-number ranges are checked first, and then
`if group and period and 1 <= group <= 18` — Python truthiness makes both
`None` and `0` falsy. -/
def compute_position (e : ElementRecord) : Except String (Option (Int × Int)) :=
  match e.atomic_number with
  | none => .error "KeyError: 'atomic_number'"
  | some atomic_number =>
    if 57 ≤ atomic_number ∧ atomic_number ≤ 71 then
      .ok (some (LAN_ROW, LAN_START_COLUMN + (atomic_number - 57)))
    else if 89 ≤ atomic_number ∧ atomic_number ≤ 103 then
      .ok (some (ACT_ROW, LAN_START_COLUMN + (atomic_number - 89)))
    else
      match e.group, e.period with
      | some group, some period =>
        if group ≠ 0 ∧ period ≠ 0 ∧ 1 ≤ group ∧ group ≤ 18 then
          .ok (some (period, group))
        else
          .ok none
      | _, _ => .ok none

/-- Embeds `cell_width = (LAYOUT_WIDTH - MARGIN_LEFT - MARGIN_RIGHT) / COLUMNS`. -/
def cell_width : ℚ := (LAYOUT_WIDTH - MARGIN_LEFT - MARGIN_RIGHT) / COLUMNS

/-- Embeds `cell_height = (LAYOUT_HEIGHT - MARGIN_TOP - MARGIN_BOTTOM) / ROWS`. -/
def cell_height : ℚ := (LAYOUT_HEIGHT - MARGIN_TOP - MARGIN_BOTTOM) / ROWS

/-- The `x` coordinate `build_cells` computes for a column. -/
def cell_x (column : Int) : ℚ := MARGIN_LEFT + (column - 1) * cell_width

/-- The `y` coordinate `build_cells` computes for a row, including the
`if row >= LAN_ROW: y += gap` adjustment. -/
def cell_y (row : Int) : ℚ :=
  let y := MARGIN_TOP + (row - 1) * cell_height
  if row ≥ LAN_ROW then y + cell_height * LAN_GAP_FACTOR else y

/-- Embedding of `build_cells`: iterate over the records, skip those whose position is
`None`, and emit a `Cell` for the rest.  The `Cell` constructor reads
`element["atomic_number"]` and `element["symbol"]` (in that order), each
of which raises `KeyError` when absent. -/
def build_cells : List ElementRecord → Except String (List Cell)
  | [] => .ok []
  | e :: rest =>
    match compute_position e with
    | .error msg => .error msg
    | .ok none => build_cells rest
    | .ok (some (row, column)) =>
      match e.atomic_number with
      | none => .error "KeyError: 'atomic_number'"
      | some z =>
        match e.symbol with
        | none => .error "KeyError: 'symbol'"
        | some sym =>
          match build_cells rest with
          | .error msg => .error msg
          | .ok cells =>
            .ok ({ atomic_number := z, symbol := sym,
                   x := cell_x column, y := cell_y row,
                   width := cell_width, height := cell_height } :: cells)

end CoverSvg

namespace CoverSvg

/-- C1: For every element record with `57 ≤ atomic_number ≤ 71`,
`compute_position` returns row 8 and column `4 + (atomic_number − 57)`,
and for every record with `89 ≤ atomic_number ≤ 103` it returns row 9
and column `4 + (atomic_number − 89)`, regardless of the `group` /
`period` values present on the record. -/
theorem compute_position_f_block (e : ElementRecord) (z : Int)
    (hz : e.atomic_number = some z) :
    (57 ≤ z → z ≤ 71 →
      compute_position e = .ok (some (8, 4 + (z - 57)))) ∧
    (89 ≤ z → z ≤ 103 →
      compute_position e = .ok (some (9, 4 + (z - 89)))) := by
  constructor
  · intro h1 h2
    simp [compute_position, hz, LAN_ROW, LAN_START_COLUMN, h1, h2]
  · intro h1 h2
    have : ¬ (57 ≤ z ∧ z ≤ 71) := by omega
    simp [compute_position, hz, ACT_ROW, LAN_START_COLUMN, this, h1, h2]

/-- Witness for C1: lanthanum-like and actinide-like records, carrying
(conflicting) group/period values that are ignored. -/
theorem compute_position_f_block_witness :
    (⟨some 60, some 3, some 6, some "Nd"⟩ : ElementRecord).atomic_number = some 60 ∧
    compute_position ⟨some 60, some 3, some 6, some "Nd"⟩ = .ok (some (8, 7)) ∧
    (⟨some 92, none, none, some "U"⟩ : ElementRecord).atomic_number = some 92 ∧
    compute_position ⟨some 92, none, none, some "U"⟩ = .ok (some (9, 7)) := by
  refine ⟨rfl, ?_, rfl, ?_⟩
  · exact (compute_position_f_block ⟨some 60, some 3, some 6, some "Nd"⟩ 60 rfl).1
      (by decide) (by decide)
  · exact (compute_position_f_block ⟨some 92, none, none, some "U"⟩ 92 rfl).2
      (by decide) (by decide)

/-- C2: For every element record with `group ∈ [1,18]`,
`period ∈ [1,7]`, and `atomic_number` outside both ranges 57..71 and
89..103, `compute_position` returns exactly `(period, group)`. -/
theorem compute_position_main_block (e : ElementRecord) (z g p : Int)
    (hz : e.atomic_number = some z)
    (hg : e.group = some g) (hp : e.period = some p)
    (hg1 : 1 ≤ g) (hg18 : g ≤ 18) (hp1 : 1 ≤ p) (hp7 : p ≤ 7)
    (hlan : ¬ (57 ≤ z ∧ z ≤ 71)) (hact : ¬ (89 ≤ z ∧ z ≤ 103)) :
    compute_position e = .ok (some (p, g)) := by
  have hgne : g ≠ 0 := by omega
  have hpne : p ≠ 0 := by omega
  simp [compute_position, hz, hg, hp, hlan, hact, hgne, hpne, hg1, hg18]

/-- Witness for C2: hydrogen. -/
theorem compute_position_main_block_witness :
    compute_position ⟨some 1, some 1, some 1, some "H"⟩ = .ok (some (1, 1)) :=
  compute_position_main_block ⟨some 1, some 1, some 1, some "H"⟩ 1 1 1
    rfl rfl rfl (by decide) (by decide) (by decide) (by decide)
    (by decide) (by decide)

end CoverSvg

namespace CoverSvg

end CoverSvg

namespace CoverSvg

/-- The gap added before the f-block rows is strictly positive. -/
theorem gap_pos : 0 < cell_height * LAN_GAP_FACTOR := by
  norm_num [cell_height, LAYOUT_HEIGHT, MARGIN_TOP, MARGIN_BOTTOM, ROWS, LAN_GAP_FACTOR]

/-- C3: Every `Cell` emitted by `build_cells` for a placed element has
`x = margin_left + (column − 1)·cell_width` and
`y = margin_top + (row − 1)·cell_height`, where
`cell_width = (canvas_width − margin_left − margin_right)/18` and
`cell_height = (canvas_height − margin_top − margin_bottom)/9`; and for
`row ≥ 8` the emitted `y` exceeds that base value by exactly
`cell_height × gap_factor` (hence is strictly greater than it). -/
theorem build_cells_pixel_position (es : List ElementRecord) (cells : List Cell)
    (h : build_cells es = .ok cells) (c : Cell) (hc : c ∈ cells) :
    ∃ e ∈ es, ∃ row column : Int,
      compute_position e = .ok (some (row, column)) ∧
      c.width = cell_width ∧ c.height = cell_height ∧
      c.x = MARGIN_LEFT + (column - 1) * cell_width ∧
      (row ≥ 8 →
        c.y = (MARGIN_TOP + (row - 1) * cell_height) + cell_height * LAN_GAP_FACTOR ∧
        MARGIN_TOP + (row - 1) * cell_height < c.y) ∧
      (row < 8 → c.y = MARGIN_TOP + (row - 1) * cell_height) := by
  induction es generalizing cells with
  | nil =>
    simp only [build_cells, Except.ok.injEq] at h
    subst h
    simp at hc
  | cons e rest ih =>
    rw [build_cells] at h
    cases hpos : compute_position e with
    | error msg => rw [hpos] at h; exact absurd h (by simp)
    | ok position =>
      rw [hpos] at h
      cases position with
      | none =>
        obtain ⟨e', he', rest'⟩ := ih cells h hc
        exact ⟨e', List.mem_cons_of_mem e he', rest'⟩
      | some rc =>
        obtain ⟨row, column⟩ := rc
        cases hz : e.atomic_number with
        | none => rw [hz] at h; exact absurd h (by simp)
        | some z =>
          rw [hz] at h
          cases hsym : e.symbol with
          | none => rw [hsym] at h; exact absurd h (by simp)
          | some sym =>
            rw [hsym] at h
            cases hrest : build_cells rest with
            | error msg => rw [hrest] at h; exact absurd h (by simp)
            | ok cells' =>
              rw [hrest] at h
              simp only [Except.ok.injEq] at h
              subst h
              rcases List.mem_cons.mp hc with rfl | hmem
              · refine ⟨e, List.mem_cons_self e rest, row, column, hpos, rfl, rfl, ?_, ?_, ?_⟩
                · simp [cell_x]
                · intro hrow
                  have h8 : row ≥ LAN_ROW := by simpa [LAN_ROW] using hrow
                  constructor
                  · simp [cell_y, h8]
                  · simp only [cell_y, h8, ge_iff_le, if_pos]
                    have := gap_pos
                    linarith
                · intro hrow
                  have h8 : ¬ row ≥ LAN_ROW := by simp [LAN_ROW]; omega
                  simp [cell_y, h8]
              · obtain ⟨e', he', rest'⟩ := ih cells' hrest hmem
                exact ⟨e', List.mem_cons_of_mem e he', rest'⟩

/-- Witness for C3: hydrogen placed in one run. -/
theorem build_cells_pixel_position_witness :
    build_cells [⟨some 1, some 1, some 1, some "H"⟩] =
      .ok [⟨1, "H", cell_x 1, cell_y 1, cell_width, cell_height⟩] ∧
    (⟨1, "H", cell_x 1, cell_y 1, cell_width, cell_height⟩ : Cell) ∈
      [(⟨1, "H", cell_x 1, cell_y 1, cell_width, cell_height⟩ : Cell)] ∧
    (∃ e ∈ [(⟨some 1, some 1, some 1, some "H"⟩ : ElementRecord)], ∃ row column : Int,
      compute_position e = .ok (some (row, column)) ∧
      (⟨1, "H", cell_x 1, cell_y 1, cell_width, cell_height⟩ : Cell).width = cell_width ∧
      (⟨1, "H", cell_x 1, cell_y 1, cell_width, cell_height⟩ : Cell).height = cell_height ∧
      (⟨1, "H", cell_x 1, cell_y 1, cell_width, cell_height⟩ : Cell).x =
        MARGIN_LEFT + (column - 1) * cell_width ∧
      (row ≥ 8 →
        (⟨1, "H", cell_x 1, cell_y 1, cell_width, cell_height⟩ : Cell).y =
          (MARGIN_TOP + (row - 1) * cell_height) + cell_height * LAN_GAP_FACTOR ∧
        MARGIN_TOP + (row - 1) * cell_height <
          (⟨1, "H", cell_x 1, cell_y 1, cell_width, cell_height⟩ : Cell).y) ∧
      (row < 8 →
        (⟨1, "H", cell_x 1, cell_y 1, cell_width, cell_height⟩ : Cell).y =
          MARGIN_TOP + (row - 1) * cell_height)) :=
  ⟨rfl, List.mem_singleton.mpr rfl,
    build_cells_pixel_position [⟨some 1, some 1, some 1, some "H"⟩]
      [⟨1, "H", cell_x 1, cell_y 1, cell_width, cell_height⟩] rfl
      ⟨1, "H", cell_x 1, cell_y 1, cell_width, cell_height⟩
      (List.mem_singleton.mpr rfl)⟩

end CoverSvg

namespace CoverSvg

/-- `compute_position` never raises when the `atomic_number` key is present. -/
theorem compute_position_ok_of_atomic (e : ElementRecord) (z : Int)
    (hz : e.atomic_number = some z) :
    ∃ pos, compute_position e = .ok pos := by
  simp only [compute_position, hz]
  split
  · exact ⟨_, rfl⟩
  · split
    · exact ⟨_, rfl⟩
    · cases e.group with
      | none => cases e.period <;> exact ⟨_, rfl⟩
      | some g =>
        cases e.period with
        | none => exact ⟨_, rfl⟩
        | some p =>
          show ∃ pos, (if g ≠ 0 ∧ p ≠ 0 ∧ 1 ≤ g ∧ g ≤ 18 then
              (Except.ok (some (p, g)) : Except String (Option (Int × Int)))
            else .ok none) = .ok pos
          by_cases hc : g ≠ 0 ∧ p ≠ 0 ∧ 1 ≤ g ∧ g ≤ 18
          · rw [if_pos hc]; exact ⟨_, rfl⟩
          · rw [if_neg hc]; exact ⟨_, rfl⟩

/-- C7: `build_cells` raises nothing on its documented input domain:
every record carrying `atomic_number` and `symbol` is processed without
error; a record whose `group`/`period` are missing, or whose `group`
lies outside 1..18, while its `atomic_number` lies outside both 57..71
and 89..103, is assigned no position and is silently dropped — the run
equals the run on the list without it, so all other records still
produce their cells. -/
theorem build_cells_total_and_skips :
    (∀ es : List ElementRecord,
      (∀ e ∈ es, e.atomic_number ≠ none ∧ e.symbol ≠ none) →
      ∃ cells, build_cells es = .ok cells) ∧
    (∀ (e : ElementRecord) (z : Int), e.atomic_number = some z →
      ¬ (57 ≤ z ∧ z ≤ 71) → ¬ (89 ≤ z ∧ z ≤ 103) →
      (e.group = none ∨ e.period = none ∨
        ∃ g, e.group = some g ∧ ¬ (1 ≤ g ∧ g ≤ 18)) →
      compute_position e = .ok none ∧
      ∀ es1 es2, build_cells (es1 ++ e :: es2) = build_cells (es1 ++ es2)) := by
  constructor
  · intro es
    induction es with
    | nil => exact fun _ => ⟨[], rfl⟩
    | cons e rest ih =>
      intro hwf
      obtain ⟨hz, hs⟩ := hwf e (List.mem_cons_self e rest)
      obtain ⟨cells, hcells⟩ := ih (fun e' he' => hwf e' (List.mem_cons_of_mem e he'))
      cases hz' : e.atomic_number with
      | none => exact absurd hz' hz
      | some z =>
        obtain ⟨pos, hpos⟩ := compute_position_ok_of_atomic e z hz'
        rw [build_cells, hpos]
        cases pos with
        | none => exact ⟨cells, hcells⟩
        | some rc =>
          obtain ⟨row, column⟩ := rc
          rw [hz', hcells]
          cases hs' : e.symbol with
          | none => exact absurd hs' hs
          | some sym => exact ⟨_, rfl⟩
  · intro e z hz hlan hact hskip
    have hnone : compute_position e = .ok none := by
      simp only [compute_position, hz]
      rw [if_neg hlan, if_neg hact]
      rcases hskip with hg | hp | ⟨g, hg, hrange⟩
      · rw [hg]
      · rw [hp]; cases e.group <;> rfl
      · rw [hg]
        cases hp : e.period with
        | none => rfl
        | some p =>
          have hcond : ¬ (g ≠ 0 ∧ p ≠ 0 ∧ 1 ≤ g ∧ g ≤ 18) := by omega
          show (if g ≠ 0 ∧ p ≠ 0 ∧ 1 ≤ g ∧ g ≤ 18 then
              (Except.ok (some (p, g)) : Except String (Option (Int × Int)))
            else .ok none) = .ok none
          rw [if_neg hcond]
    refine ⟨hnone, ?_⟩
    intro es1 es2
    induction es1 with
    | nil =>
      simp only [List.nil_append]
      rw [build_cells, hnone]
    | cons e1 rest1 ih1 =>
      simp only [List.cons_append]
      rw [build_cells, build_cells, ih1]

/-- Witness for C7: a well-formed singleton run, and a record with
`group = 19` and no `period` that is dropped between hydrogen and
lithium without disturbing their cells. -/
theorem build_cells_total_and_skips_witness :
    (∃ cells, build_cells [⟨some 1, some 1, some 1, some "H"⟩] = .ok cells) ∧
    compute_position ⟨some 2, some 19, none, some "He"⟩ = .ok none ∧
    build_cells ([⟨some 1, some 1, some 1, some "H"⟩] ++
        ⟨some 2, some 19, none, some "He"⟩ :: [⟨some 3, some 1, some 2, some "Li"⟩]) =
      build_cells ([⟨some 1, some 1, some 1, some "H"⟩] ++
        [⟨some 3, some 1, some 2, some "Li"⟩]) :=
  ⟨build_cells_total_and_skips.1 [⟨some 1, some 1, some 1, some "H"⟩] (by decide),
   (build_cells_total_and_skips.2 ⟨some 2, some 19, none, some "He"⟩ 2 rfl
      (by decide) (by decide) (Or.inr (Or.inl rfl))).1,
   (build_cells_total_and_skips.2 ⟨some 2, some 19, none, some "He"⟩ 2 rfl
      (by decide) (by decide) (Or.inr (Or.inl rfl))).2
     [⟨some 1, some 1, some 1, some "H"⟩] [⟨some 3, some 1, some 2, some "Li"⟩]⟩

/-- C8: `build_cells` is deterministic: two runs on the same input
list yield `Cell` sequences of the same length that agree in every
field at every index. -/
theorem build_cells_deterministic (es : List ElementRecord)
    (cells1 cells2 : List Cell)
    (h1 : build_cells es = .ok cells1) (h2 : build_cells es = .ok cells2) :
    cells1.length = cells2.length ∧
    ∀ (i : ℕ) (hi1 : i < cells1.length) (hi2 : i < cells2.length),
      (cells1.get ⟨i, hi1⟩).atomic_number = (cells2.get ⟨i, hi2⟩).atomic_number ∧
      (cells1.get ⟨i, hi1⟩).symbol = (cells2.get ⟨i, hi2⟩).symbol ∧
      (cells1.get ⟨i, hi1⟩).x = (cells2.get ⟨i, hi2⟩).x ∧
      (cells1.get ⟨i, hi1⟩).y = (cells2.get ⟨i, hi2⟩).y ∧
      (cells1.get ⟨i, hi1⟩).width = (cells2.get ⟨i, hi2⟩).width ∧
      (cells1.get ⟨i, hi1⟩).height = (cells2.get ⟨i, hi2⟩).height := by
  rw [h1] at h2
  obtain rfl := Except.ok.inj h2
  exact ⟨rfl, fun i hi1 hi2 => ⟨rfl, rfl, rfl, rfl, rfl, rfl⟩⟩

/-- Witness for C8: the two-element hydrogen/neodymium run, twice. -/
theorem build_cells_deterministic_witness :
    build_cells [⟨some 1, some 1, some 1, some "H"⟩, ⟨some 60, none, none, some "Nd"⟩] =
      .ok [⟨1, "H", cell_x 1, cell_y 1, cell_width, cell_height⟩,
           ⟨60, "Nd", cell_x 7, cell_y 8, cell_width, cell_height⟩] ∧
    ([⟨1, "H", cell_x 1, cell_y 1, cell_width, cell_height⟩,
      ⟨60, "Nd", cell_x 7, cell_y 8, cell_width, cell_height⟩] : List Cell).length =
      ([⟨1, "H", cell_x 1, cell_y 1, cell_width, cell_height⟩,
        ⟨60, "Nd", cell_x 7, cell_y 8, cell_width, cell_height⟩] : List Cell).length :=
  ⟨rfl,
   (build_cells_deterministic
      [⟨some 1, some 1, some 1, some "H"⟩, ⟨some 60, none, none, some "Nd"⟩]
      _ _ rfl rfl).1⟩

/-- C10: Outside the documented record shape, `build_cells` raises
rather than skipping: a record without the `atomic_number` key makes
`compute_position` (and hence `build_cells`) raise `KeyError`, and a
placeable record without the `symbol` key makes `build_cells` raise
`KeyError` when constructing its `Cell`. -/
theorem build_cells_keyerror :
    compute_position ⟨none, some 1, some 1, some "X"⟩ =
      .error "KeyError: 'atomic_number'" ∧
    build_cells [⟨none, some 1, some 1, some "X"⟩] =
      .error "KeyError: 'atomic_number'" ∧
    build_cells [⟨some 1, some 1, some 1, none⟩] =
      .error "KeyError: 'symbol'" :=
  ⟨rfl, rfl, rfl⟩

end CoverSvg

namespace CoverSvg

/-- The floating-point `%` of Python on a positive modulus:
`x % m = x - m * floor(x / m)`, with result in `[0, m)`. -/
def pymod (x m : ℚ) : ℚ := x - m * ⌊x / m⌋

/-- Embedding of `_normalize_topclock_deg`: `theta % 360.0`. -/
def normalize_topclock_deg (θ : ℚ) : ℚ := pymod θ 360

/-- Embedding of `_clockwise_extent_deg`: normalize both angles, then take the
clockwise difference modulo 360. -/
def clockwise_extent_deg (s e : ℚ) : ℚ :=
  pymod (normalize_topclock_deg e - normalize_topclock_deg s) 360

/-- The `large_arc_flag` computed in `make_arc_path_d`:
`1 if arc_extent > 180 else 0`. -/
def large_arc_flag (s e : ℚ) : ℕ :=
  if 180 < clockwise_extent_deg s e then 1 else 0

/-- Embedding of `_topclock_deg_to_svg_rad`: `math.radians(theta - 90.0)`. -/
noncomputable def topclock_deg_to_svg_rad (θ : ℚ) : ℝ :=
  ((θ : ℝ) - 90) * Real.pi / 180

/-- Embedding of `_polar_to_xy`: `(cx + r·cos φ, cy + r·sin φ)`. -/
noncomputable def polar_to_xy (cx cy r θ : ℚ) : ℝ × ℝ :=
  ((cx : ℝ) + (r : ℝ) * Real.cos (topclock_deg_to_svg_rad θ),
   (cy : ℝ) + (r : ℝ) * Real.sin (topclock_deg_to_svg_rad θ))

/-- The numeric content of the path `d` string emitted by
`make_arc_path_d`: `M x1,y1 A rx,ry rotation large_arc sweep x2,y2`. -/
structure ArcPathData where
  x1 : ℝ
  y1 : ℝ
  rx : ℝ
  ry : ℝ
  rotation : ℚ
  large_arc : ℕ
  sweep : ℕ
  x2 : ℝ
  y2 : ℝ

/-- The arc data `make_arc_path_d` computes: endpoints from
`_polar_to_xy` at the start and end angles, both radii equal to `r`,
rotation 0, the large-arc flag from the clockwise extent, sweep 1. -/
noncomputable def make_arc_path_data (cx cy r s e : ℚ) : ArcPathData :=
  { x1 := (polar_to_xy cx cy r s).1, y1 := (polar_to_xy cx cy r s).2,
    rx := (r : ℝ), ry := (r : ℝ), rotation := 0,
    large_arc := large_arc_flag s e, sweep := 1,
    x2 := (polar_to_xy cx cy r e).1, y2 := (polar_to_xy cx cy r e).2 }

/-- Embedding of `make_arc_path_d` with the `:.3f` coordinate formatter abstracted as
`fmt`: every coordinate of the emitted string passes through the single
fixed 3-decimal-digit formatter, the rotation is the literal `0`, and
the two flags are printed as integers. -/
noncomputable def make_arc_path_d (fmt : ℝ → String) (cx cy r s e : ℚ) : String :=
  let a := make_arc_path_data cx cy r s e
  String.join ["M ", fmt a.x1, ",", fmt a.y1,
    " A ", fmt a.rx, ",", fmt a.ry,
    " 0 ", toString a.large_arc, " ", toString a.sweep,
    " ", fmt a.x2, ",", fmt a.y2]

end CoverSvg

namespace CoverSvg

end CoverSvg

namespace CoverSvg

/-- C4: The clockwise extent used by `make_arc_path_d` equals
`((end mod 360) − (start mod 360)) mod 360`, and the emitted large-arc
flag is 1 exactly when this extent strictly exceeds 180°; in particular
the extent from 350° to 10° is 20° (not 340°), and the flag for the
0°→90° arc is 0. -/
theorem arc_extent_and_flag :
    (∀ s e : ℚ, clockwise_extent_deg s e =
      pymod (pymod e 360 - pymod s 360) 360) ∧
    (∀ cx cy r s e : ℚ,
      ((make_arc_path_data cx cy r s e).large_arc = 1 ↔
        180 < clockwise_extent_deg s e)) ∧
    clockwise_extent_deg 350 10 = 20 ∧
    large_arc_flag 0 90 = 0 := by
  refine ⟨fun s e => rfl, fun cx cy r s e => ?_, ?_, ?_⟩
  · simp only [make_arc_path_data, large_arc_flag]
    by_cases h : 180 < clockwise_extent_deg s e
    · simp [h]
    · simp [h]
  · norm_num [clockwise_extent_deg, normalize_topclock_deg, pymod]
  · norm_num [large_arc_flag, clockwise_extent_deg, normalize_topclock_deg, pymod]

/-- C5: `make_arc_path_d(100, 100, 50, 0, 90)` starts at `(100, 50)`
(straight up from the center under the top-clockwise convention) and
ends at `(150, 100)`, with both radii 50, rotation 0, large-arc flag 0
and sweep flag 1; the emitted string feeds every coordinate through the
single 3-decimal-digit formatter. -/
theorem make_arc_path_quarter_circle :
    make_arc_path_data 100 100 50 0 90 =
      { x1 := 100, y1 := 50, rx := 50, ry := 50, rotation := 0,
        large_arc := 0, sweep := 1, x2 := 150, y2 := 100 } ∧
    ∀ fmt : ℝ → String,
      make_arc_path_d fmt 100 100 50 0 90 =
        String.join ["M ", fmt 100, ",", fmt 50,
          " A ", fmt 50, ",", fmt 50,
          " 0 ", "0", " ", "1",
          " ", fmt 150, ",", fmt 100] := by
  have hrad0 : topclock_deg_to_svg_rad 0 = -(Real.pi / 2) := by
    simp only [topclock_deg_to_svg_rad]
    push_cast
    ring
  have hrad90 : topclock_deg_to_svg_rad 90 = 0 := by
    simp only [topclock_deg_to_svg_rad]
    push_cast
    ring
  have hflag : large_arc_flag 0 90 = 0 := by
    norm_num [large_arc_flag, clockwise_extent_deg, normalize_topclock_deg, pymod]
  have hdata : make_arc_path_data 100 100 50 0 90 =
      { x1 := 100, y1 := 50, rx := 50, ry := 50, rotation := 0,
        large_arc := 0, sweep := 1, x2 := 150, y2 := 100 } := by
    simp only [make_arc_path_data, polar_to_xy, hrad0, hrad90, Real.cos_neg,
      Real.cos_pi_div_two, Real.sin_neg, Real.sin_pi_div_two, Real.cos_zero,
      Real.sin_zero, hflag, ArcPathData.mk.injEq]
    norm_num
  refine ⟨hdata, fun fmt => ?_⟩
  simp only [make_arc_path_d, hdata]
  rfl

/-- Counterexample to C6: at `start = 0`, `end = 360` the two angles are
equal modulo 360, yet the computed clockwise extent is 0 — not a
near-360° value — and the large-arc flag is 0, not 1. -/
theorem zero_span_small_arc :
    normalize_topclock_deg 0 = normalize_topclock_deg 360 ∧
    clockwise_extent_deg 0 360 = 0 ∧
    large_arc_flag 0 360 = 0 ∧
    ¬ (180 < clockwise_extent_deg 0 360 ∧ large_arc_flag 0 360 = 1) := by
  norm_num [normalize_topclock_deg, clockwise_extent_deg, pymod, large_arc_flag]

/-- C6 amended: For every start angle equal to the end angle
modulo 360, the clockwise-distance rule yields extent 0 and large-arc
flag 0, and the generated path is a zero-length arc whose start and end
points coincide; the case is not special-cased away — the path is still
emitted by the same formula. -/
theorem zero_span_extent_zero (s e : ℚ)
    (h : normalize_topclock_deg s = normalize_topclock_deg e) :
    clockwise_extent_deg s e = 0 ∧ large_arc_flag s e = 0 ∧
    ∀ cx cy r : ℚ,
      (make_arc_path_data cx cy r s e).x1 = (make_arc_path_data cx cy r s e).x2 ∧
      (make_arc_path_data cx cy r s e).y1 = (make_arc_path_data cx cy r s e).y2 := by
  have hdiff : normalize_topclock_deg e - normalize_topclock_deg s = 0 := by
    rw [← h]
    ring
  have hext : clockwise_extent_deg s e = 0 := by
    rw [clockwise_extent_deg, hdiff]
    norm_num [pymod]
  refine ⟨hext, by simp [large_arc_flag, hext], ?_⟩
  intro cx cy r
  have hk : (s : ℚ) - e = 360 * ((⌊s / 360⌋ - ⌊e / 360⌋ : ℤ) : ℚ) := by
    have h' := h
    simp only [normalize_topclock_deg, pymod] at h'
    push_cast
    linarith
  have hrad : topclock_deg_to_svg_rad s =
      topclock_deg_to_svg_rad e + ((⌊s / 360⌋ - ⌊e / 360⌋ : ℤ) : ℝ) * (2 * Real.pi) := by
    simp only [topclock_deg_to_svg_rad]
    have hsr : ((s : ℝ)) = (e : ℝ) + 360 * ((⌊s / 360⌋ - ⌊e / 360⌋ : ℤ) : ℝ) := by
      have h2 : ((s - e : ℚ) : ℝ) =
          ((360 * ((⌊s / 360⌋ - ⌊e / 360⌋ : ℤ) : ℚ) : ℚ) : ℝ) :=
        congrArg (fun q : ℚ => (q : ℝ)) hk
      push_cast at h2 ⊢
      linarith
    rw [hsr]
    ring
  constructor
  · simp only [make_arc_path_data, polar_to_xy]
    rw [hrad, Real.cos_add_int_mul_two_pi]
  · simp only [make_arc_path_data, polar_to_xy]
    rw [hrad, Real.sin_add_int_mul_two_pi]

/-- Witness for the amended C6: the pair `start = 0`, `end = 360` on the
circle of radius 10 centred at the origin. -/
theorem zero_span_extent_zero_witness :
    normalize_topclock_deg 0 = normalize_topclock_deg 360 ∧
    clockwise_extent_deg 0 360 = 0 ∧ large_arc_flag 0 360 = 0 ∧
    (make_arc_path_data 0 0 10 0 360).x1 = (make_arc_path_data 0 0 10 0 360).x2 ∧
    (make_arc_path_data 0 0 10 0 360).y1 = (make_arc_path_data 0 0 10 0 360).y2 := by
  have h : normalize_topclock_deg 0 = normalize_topclock_deg (360 : ℚ) := by
    norm_num [normalize_topclock_deg, pymod]
  obtain ⟨h1, h2, h3⟩ := zero_span_extent_zero 0 360 h
  exact ⟨h, h1, h2, (h3 0 0 10).1, (h3 0 0 10).2⟩

end CoverSvg

namespace CoverSvg

theorem cell_width_pos : (0 : ℚ) < cell_width := by
  norm_num [cell_width, LAYOUT_WIDTH, MARGIN_LEFT, MARGIN_RIGHT, COLUMNS]

theorem cell_height_pos : (0 : ℚ) < cell_height := by
  norm_num [cell_height, LAYOUT_HEIGHT, MARGIN_TOP, MARGIN_BOTTOM, ROWS]

/-- `cell_y` written with the gap as an additive `ite` term. -/
theorem cell_y_eq (row : Int) : cell_y row =
    MARGIN_TOP + (row - 1) * cell_height +
      (if row ≥ 8 then cell_height * LAN_GAP_FACTOR else 0) := by
  simp only [cell_y, LAN_ROW]
  split
  · rfl
  · ring

/-- Cells in strictly increasing columns are horizontally separated by at
least one cell width. -/
theorem cell_x_step (a b : Int) (h : a < b) :
    cell_x a + cell_width ≤ cell_x b := by
  have hab : (a : ℚ) + 1 ≤ b := by exact_mod_cast h
  have hw := cell_width_pos
  have hstep : (0 : ℚ) ≤ ((b : ℚ) - 1 - a) * cell_width :=
    mul_nonneg (by linarith) hw.le
  simp only [cell_x]
  nlinarith [hstep]

/-- Cells in strictly increasing rows are vertically separated by at
least one cell height, also across the gap inserted before row 8. -/
theorem cell_y_step (a b : Int) (h : a < b) :
    cell_y a + cell_height ≤ cell_y b := by
  have hab : (a : ℚ) + 1 ≤ b := by exact_mod_cast h
  have hh := cell_height_pos
  have hgap : (0 : ℚ) ≤ cell_height * LAN_GAP_FACTOR := gap_pos.le
  have hstep : (0 : ℚ) ≤ ((b : ℚ) - 1 - a) * cell_height :=
    mul_nonneg (by linarith) hh.le
  rw [cell_y_eq, cell_y_eq]
  by_cases ha : a ≥ 8
  · have hb : b ≥ 8 := by omega
    simp only [ha, hb, if_pos]
    nlinarith [hstep]
  · by_cases hb : b ≥ 8
    · simp only [ha, hb, if_pos, if_neg, not_false_iff]
      nlinarith [hstep, hgap]
    · simp only [ha, hb, if_neg, not_false_iff]
      nlinarith [hstep]

/-- C9: Any two elements of one run that are placed on distinct
`(row, column)` grid coordinates get cells whose rectangles have
disjoint interiors: the cells are separated by at least one full cell
width horizontally or one full cell height vertically, including across
the gap-shifted rows 8 and 9, whenever the period values lie in
`[1, 7]`. -/
theorem cells_disjoint (e1 e2 : ElementRecord) (r1 c1 r2 c2 : Int)
    (h1 : compute_position e1 = .ok (some (r1, c1)))
    (h2 : compute_position e2 = .ok (some (r2, c2)))
    (hp1 : ∀ p, e1.period = some p → 1 ≤ p ∧ p ≤ 7)
    (hp2 : ∀ p, e2.period = some p → 1 ≤ p ∧ p ≤ 7)
    (hne : (r1, c1) ≠ (r2, c2)) :
    cell_x c1 + cell_width ≤ cell_x c2 ∨ cell_x c2 + cell_width ≤ cell_x c1 ∨
    cell_y r1 + cell_height ≤ cell_y r2 ∨ cell_y r2 + cell_height ≤ cell_y r1 := by
  by_cases hr : r1 = r2
  · have hc : c1 ≠ c2 := by
      intro hcc
      exact hne (by rw [hr, hcc])
    rcases lt_or_gt_of_ne hc with hlt | hgt
    · exact Or.inl (cell_x_step c1 c2 hlt)
    · exact Or.inr (Or.inl (cell_x_step c2 c1 hgt))
  · rcases lt_or_gt_of_ne hr with hlt | hgt
    · exact Or.inr (Or.inr (Or.inl (cell_y_step r1 r2 hlt)))
    · exact Or.inr (Or.inr (Or.inr (cell_y_step r2 r1 hgt)))

/-- Witness for C9: hydrogen at `(1, 1)` against neodymium at `(8, 7)`. -/
theorem cells_disjoint_witness :
    compute_position ⟨some 1, some 1, some 1, some "H"⟩ = .ok (some (1, 1)) ∧
    compute_position ⟨some 60, none, none, some "Nd"⟩ = .ok (some (8, 7)) ∧
    ((1 : Int), (1 : Int)) ≠ ((8 : Int), (7 : Int)) ∧
    (cell_x 1 + cell_width ≤ cell_x 7 ∨ cell_x 7 + cell_width ≤ cell_x 1 ∨
     cell_y 1 + cell_height ≤ cell_y 8 ∨ cell_y 8 + cell_height ≤ cell_y 1) := by
  refine ⟨rfl, rfl, by decide, ?_⟩
  exact cells_disjoint ⟨some 1, some 1, some 1, some "H"⟩
    ⟨some 60, none, none, some "Nd"⟩ 1 1 8 7 rfl rfl
    (by intro p hp; injection hp with hp'; subst hp'; decide)
    (by intro p hp; cases hp)
    (by decide)

end CoverSvg
